import Mathlib

/-!
# Jungle 404 planting ledger — shallow embedding and verification

This file embeds the API logic of `jungle404_server.js` (and, for the
backend-equivalence claim, of `jungle404_demo_server.js`) and proves the
specification claims about it.

Modelling conventions:

* The two in-memory JavaScript `Map`s (`intents`, `orders`) are embedded as
  association lists with `Map.get` / `Map.has` / `Map.set` semantics
  (`tget` / `thas` / `tset`): `set` replaces the entry in place when the key
  is present and appends otherwise, exactly as a JS `Map` does.
* The handlers are pure state-passing functions.  Every value the code pulls
  from its environment — `Date.now()`, the bytes drawn by
  `crypto.randomBytes` inside `generateId`, `Math.random()`, and
  `req.socket.remoteAddress` — is passed in as an explicit argument, so a
  run of the server is a fold of atomic handler executions over an input
  list.  Node.js runs each `req.on('end')` callback to completion on the
  single event-loop thread (the confirm handler contains no `await` or
  other yield point between its check and its updates), so any set of
  concurrent requests is observationally some sequence of these atomic
  steps.
* JavaScript numbers are embedded as exact rationals (`ℚ`); the
  `Math.random()` results are rationals assumed to lie in `[0, 1)`.
* `JSON.parse(body || '{}')` is embedded by its outcome on the raw body
  (`RawBody`): the body is empty (defaulted to `'{}'`, which parses to an
  object with no `intent_id` field), unparsable (the `catch` branch), or a
  parsed object whose `intent_id` field is absent (`none`) or a string.
  The JavaScript falsiness test `!intentId` on an absent-or-string field
  holds exactly for `none` and for the empty string.
* Dereferencing `undefined` (the already-confirmed branch reading
  `orders.get(intent.plantingId).plantingId` when the linkage is broken)
  throws in JavaScript; the model returns the distinguished
  `Response.crash`.
-/

/-! ## Association tables with JS `Map` semantics -/

/-- `Map.get`: the value at the first (and in well-formed states only)
entry with the given key. -/
def tget {α : Type} : List (String × α) → String → Option α
  | [], _ => none
  | p :: rest, k => if p.1 = k then some p.2 else tget rest k

/-- `Map.has`. -/
def thas {α : Type} (t : List (String × α)) (k : String) : Bool :=
  (tget t k).isSome

/-- `Map.set`: replace in place if the key is present, append otherwise. -/
def tset {α : Type} : List (String × α) → String → α → List (String × α)
  | [], k, v => [(k, v)]
  | p :: rest, k, v => if p.1 = k then (k, v) :: rest else p :: tset rest k v

/-- The list of keys of a table. -/
def keys {α : Type} (t : List (String × α)) : List String :=
  t.map Prod.fst

/-! ## `generateId`

`generateId(length)` in both server files draws `Math.ceil(length / 2)`
random bytes with `crypto.randomBytes`, hex-encodes them and truncates the
hex string to `length` characters.  The random byte draw is the explicit
argument `bytes` (each entry a byte value). -/

/-- One lower-case hex digit, as produced by `Buffer.toString('hex')`. -/
def hexDigit (n : Nat) : Char :=
  if n < 10 then Char.ofNat (48 + n) else Char.ofNat (87 + n)

/-- Two-digit lower-case hex encoding of one byte. -/
def byteHex (b : Nat) : String :=
  String.mk [hexDigit (b / 16), hexDigit (b % 16)]

/-- `Buffer.toString('hex')` on a byte list. -/
def bytesToHex (bs : List Nat) : String :=
  String.join (bs.map byteHex)

/-- `generateId(length)` applied to the bytes returned by
`crypto.randomBytes(Math.ceil(length / 2))`. -/
def generateId (length : Nat) (bytes : List Nat) : String :=
  (bytesToHex bytes).take length

/-! ## `new Date(ms).toISOString()`

`generateCertificate` renders the stored millisecond timestamp with
`new Date(order.confirmedAt).toISOString()`.  For non-negative timestamps
this is the proleptic-Gregorian rendering `YYYY-MM-DDTHH:mm:ss.sssZ`;
`civilFromDays` is the standard civil-from-days conversion. -/

/-- Decimal rendering left-padded with zeros to the given width. -/
def padZeros (width n : Nat) : String :=
  String.mk (List.replicate (width - (toString n).length) '0') ++ toString n

/-- Civil date (year, month, day) of a day count since 1970-01-01. -/
def civilFromDays (days : Nat) : Nat × Nat × Nat :=
  let z := days + 719468
  let era := z / 146097
  let doe := z % 146097
  let yoe := (doe - doe / 1460 + doe / 36524 - doe / 146096) / 365
  let y := yoe + era * 400
  let doy := doe - (365 * yoe + yoe / 4 - yoe / 100)
  let mp := (5 * doy + 2) / 153
  let d := doy - (153 * mp + 2) / 5 + 1
  let m := if mp < 10 then mp + 3 else mp - 9
  (if m ≤ 2 then y + 1 else y, m, d)

/-- `new Date(ms).toISOString()` for a non-negative epoch-millisecond
timestamp. -/
def toISOString (ms : Nat) : String :=
  let dateData := civilFromDays (ms / 86400000)
  let msOfDay := ms % 86400000
  padZeros 4 dateData.1 ++ "-" ++ padZeros 2 dateData.2.1 ++ "-" ++
    padZeros 2 dateData.2.2 ++ "T" ++ padZeros 2 (msOfDay / 3600000) ++ ":" ++
    padZeros 2 (msOfDay % 3600000 / 60000) ++ ":" ++
    padZeros 2 (msOfDay % 60000 / 1000) ++ "." ++
    padZeros 3 (msOfDay % 1000) ++ "Z"

/-! ## Data model -/

/-- An entry of the `intents` map.  `plantingId` is the field added by the
confirm handler (`intent.plantingId = plantingId`); it is absent
(`none`, i.e. `undefined`) until the intent is confirmed. -/
structure Intent where
  createdAt : Nat
  confirmed : Bool
  ip : String
  plantingId : Option String
deriving DecidableEq, Repr

/-- An entry of the `orders` map, as built by the confirm handler.  The
two-element `coordinates` array is the pair `(latitude, longitude)`. -/
structure Order where
  plantingId : String
  intentId : String
  createdAt : Nat
  confirmedAt : Nat
  ip : String
  coordinates : ℚ × ℚ
deriving DecidableEq, Repr

/-- The two shared in-memory tables. -/
structure ServerState where
  intents : List (String × Intent)
  orders : List (String × Order)
deriving DecidableEq, Repr

/-- The JSON object returned by `generateCertificate`. -/
structure Certificate where
  planting_id : String
  intent_id : String
  project : String
  planted_at : String
  coordinates : ℚ × ℚ
  message : String
deriving DecidableEq, Repr

/-- The observable responses of the three handlers. -/
inductive Response where
  | intentCreated (intentId : String)
  | ok (plantingId : String)
  | certificate (c : Certificate)
  | invalidJson
  | intentNotFound
  | orderNotFound
  | crash
deriving DecidableEq, Repr

/-- The raw body of a confirmation request, by its `JSON.parse` outcome. -/
inductive RawBody where
  | empty
  | invalid
  | objWith (intentId : Option String)
deriving DecidableEq, Repr

/-- Outcome of `JSON.parse(body || '{}')` followed by reading
`parsed.intent_id`: `none` when `JSON.parse` throws, otherwise the value of
the `intent_id` field (`none` when the field is absent). -/
def parseBody : RawBody → Option (Option String)
  | RawBody.empty => some none
  | RawBody.invalid => none
  | RawBody.objWith f => some f

/-! ## The three operations of `jungle404_server.js` -/

/-- The `POST /planting-intents` handler: store a fresh unconfirmed intent
under the id returned by `generateId(12)` and answer with it. -/
def createIntent (st : ServerState) (intentId : String) (now : Nat)
    (ip : String) : ServerState × Response :=
  (⟨tset st.intents intentId
      { createdAt := now, confirmed := false, ip := ip, plantingId := none },
    st.orders⟩,
   Response.intentCreated intentId)

/-- The `POST /confirm` handler (`req.on('end')` callback).
`freshOrderId` is the value of `generateId(10)`, `now` the value of
`Date.now()`, and `r1`, `r2` the two `Math.random()` results. -/
def confirmIntent (st : ServerState) (body : RawBody) (freshOrderId : String)
    (now : Nat) (ip : String) (r1 r2 : ℚ) : ServerState × Response :=
  match parseBody body with
  | none => (st, Response.invalidJson)
  | some field =>
    match field with
    | none => (st, Response.intentNotFound)
    | some intentId =>
      if intentId = "" then (st, Response.intentNotFound)
      else
        match tget st.intents intentId with
        | none => (st, Response.intentNotFound)
        | some intent =>
          if intent.confirmed then
            match intent.plantingId with
            | none => (st, Response.crash)
            | some pid =>
              match tget st.orders pid with
              | none => (st, Response.crash)
              | some order => (st, Response.ok order.plantingId)
          else
            let plantingId := freshOrderId
            let order : Order :=
              { plantingId := plantingId, intentId := intentId,
                createdAt := intent.createdAt, confirmedAt := now, ip := ip,
                coordinates :=
                  (-3.465305 + (r1 - 0.5) * 0.1,
                   -73.241997 + (r2 - 0.5) * 0.1) }
            (⟨tset st.intents intentId
                { intent with confirmed := true, plantingId := some plantingId },
              tset st.orders plantingId order⟩,
             Response.ok plantingId)

/-- `generateCertificate`. -/
def generateCertificate (order : Order) : Certificate :=
  { planting_id := order.plantingId,
    intent_id := order.intentId,
    project := "Amazonía Peruana",
    planted_at := toISOString order.confirmedAt,
    coordinates := order.coordinates,
    message := "Gracias por plantar un árbol en la Amazonía peruana!" }

/-- The `GET /proofs` handler; the argument is the `planting_id` query
parameter (`none` when absent). -/
def getProof (st : ServerState) (plantingIdParam : Option String) :
    ServerState × Response :=
  match plantingIdParam with
  | none => (st, Response.orderNotFound)
  | some pid =>
    if pid = "" then (st, Response.orderNotFound)
    else
      match tget st.orders pid with
      | none => (st, Response.orderNotFound)
      | some order => (st, Response.certificate (generateCertificate order))

/-! ## Runs of the server -/

/-- One invocation of an operation, with all of its environment inputs. -/
inductive Op where
  | create (intentId : String) (now : Nat) (ip : String)
  | confirm (body : RawBody) (freshOrderId : String) (now : Nat) (ip : String)
      (r1 r2 : ℚ)
  | proof (plantingIdParam : Option String)
deriving DecidableEq, Repr

/-- One atomic handler execution. -/
def step (st : ServerState) : Op → ServerState × Response
  | Op.create intentId now ip => createIntent st intentId now ip
  | Op.confirm body freshOrderId now ip r1 r2 =>
      confirmIntent st body freshOrderId now ip r1 r2
  | Op.proof pid => getProof st pid

/-- The state after a sequence of handler executions. -/
def run (st : ServerState) : List Op → ServerState
  | [] => st
  | op :: rest => run (step st op).1 rest

/-- The state at process start: both maps empty. -/
def initialState : ServerState := ⟨[], []⟩

/-- The id supplied to a step is a fresh draw of `generateId`: nonempty
(`generateId` with positive length always returns at least one hex
character) and distinct from every existing intent and order id.  This is
the spec's assumption on the random id source; the code itself performs no
collision check. -/
def freshOk (st : ServerState) : Op → Bool
  | Op.create intentId _ _ =>
      decide (intentId ≠ "") && !thas st.intents intentId &&
        !thas st.orders intentId
  | Op.confirm _ freshOrderId _ _ _ _ =>
      decide (freshOrderId ≠ "") && !thas st.intents freshOrderId &&
        !thas st.orders freshOrderId
  | Op.proof _ => true

/-- Every id supplied along the run is a fresh draw. -/
def runFresh (st : ServerState) : List Op → Bool
  | [] => true
  | op :: rest => freshOk st op && runFresh (step st op).1 rest

/-! ## The referential-integrity invariant -/

/-- The intent named by an order is present, confirmed, and links back to
exactly this order. -/
def orderLinked (st : ServerState) (p : String × Order) : Prop :=
  p.2.plantingId = p.1 ∧
    (tget st.intents p.2.intentId).map
        (fun it => (it.confirmed, it.plantingId)) =
      some (true, some p.1)

/-- A confirmed intent stores an order id whose order exists and points
back to it; an unconfirmed intent stores no order id. -/
def intentLinked (st : ServerState) (p : String × Intent) : Prop :=
  (p.2.confirmed = true →
    p.2.plantingId.bind (fun pid => (tget st.orders pid).map Order.intentId) =
      some p.1) ∧
  (p.2.confirmed = false → p.2.plantingId = none)

/-- Well-formedness of the two tables: keys are unique and nonempty, and
the intent/order linkage is a 1:1 correspondence. -/
def Wf (st : ServerState) : Prop :=
  (keys st.intents).Nodup ∧ (keys st.orders).Nodup ∧
  (∀ p ∈ st.intents, p.1 ≠ "" ∧ intentLinked st p) ∧
  (∀ p ∈ st.orders, p.1 ≠ "" ∧ orderLinked st p)

instance (st : ServerState) (p : String × Order) :
    Decidable (orderLinked st p) := by
  unfold orderLinked
  infer_instance

instance (st : ServerState) (p : String × Intent) :
    Decidable (intentLinked st p) := by
  unfold intentLinked
  infer_instance

instance (st : ServerState) : Decidable (Wf st) := by
  unfold Wf
  infer_instance

/-! ## The API logic of `jungle404_demo_server.js`

`jungle404_demo_server.js` embeds its own copy of the three API handlers
(its `apiServer`), with its own private `intents` / `orders` maps,
`generateId` and `generateCertificate`.  The definitions below are
translated from that file, independently of the ones above, for the
backend-equivalence claim. -/

/-- `generateId` of the demo server. -/
def generateIdDemo (length : Nat) (bytes : List Nat) : String :=
  (String.join (bytes.map byteHex)).take length

/-- `generateCertificate` of the demo server. -/
def generateCertificateDemo (order : Order) : Certificate :=
  { planting_id := order.plantingId,
    intent_id := order.intentId,
    project := "Amazonía Peruana",
    planted_at := toISOString order.confirmedAt,
    coordinates := order.coordinates,
    message := "Gracias por plantar un árbol en la Amazonía peruana!" }

/-- The demo server's `POST /planting-intents` handler. -/
def createIntentDemo (st : ServerState) (intentId : String) (now : Nat)
    (ip : String) : ServerState × Response :=
  (⟨tset st.intents intentId
      { createdAt := now, confirmed := false, ip := ip, plantingId := none },
    st.orders⟩,
   Response.intentCreated intentId)

/-- The demo server's `POST /confirm` handler. -/
def confirmIntentDemo (st : ServerState) (body : RawBody)
    (freshOrderId : String) (now : Nat) (ip : String) (r1 r2 : ℚ) :
    ServerState × Response :=
  match parseBody body with
  | none => (st, Response.invalidJson)
  | some field =>
    match field with
    | none => (st, Response.intentNotFound)
    | some intentId =>
      if intentId = "" then (st, Response.intentNotFound)
      else
        match tget st.intents intentId with
        | none => (st, Response.intentNotFound)
        | some intent =>
          if intent.confirmed then
            match intent.plantingId with
            | none => (st, Response.crash)
            | some pid =>
              match tget st.orders pid with
              | none => (st, Response.crash)
              | some order => (st, Response.ok order.plantingId)
          else
            let plantingId := freshOrderId
            let order : Order :=
              { plantingId := plantingId, intentId := intentId,
                createdAt := intent.createdAt, confirmedAt := now, ip := ip,
                coordinates :=
                  (-3.465305 + (r1 - 0.5) * 0.1,
                   -73.241997 + (r2 - 0.5) * 0.1) }
            (⟨tset st.intents intentId
                { intent with confirmed := true, plantingId := some plantingId },
              tset st.orders plantingId order⟩,
             Response.ok plantingId)

/-- The demo server's `GET /proofs` handler; `urlObj.searchParams.get`
yields `null` (here `none`) when the parameter is absent. -/
def getProofDemo (st : ServerState) (plantingIdParam : Option String) :
    ServerState × Response :=
  match plantingIdParam with
  | none => (st, Response.orderNotFound)
  | some pid =>
    if pid = "" then (st, Response.orderNotFound)
    else
      match tget st.orders pid with
      | none => (st, Response.orderNotFound)
      | some order => (st, Response.certificate (generateCertificateDemo order))

/-- One atomic handler execution of the demo server. -/
def stepDemo (st : ServerState) : Op → ServerState × Response
  | Op.create intentId now ip => createIntentDemo st intentId now ip
  | Op.confirm body freshOrderId now ip r1 r2 =>
      confirmIntentDemo st body freshOrderId now ip r1 r2
  | Op.proof pid => getProofDemo st pid

/-- The demo server's state after a sequence of handler executions. -/
def runDemo (st : ServerState) : List Op → ServerState
  | [] => st
  | op :: rest => runDemo (stepDemo st op).1 rest

/-! ## Table lemmas -/

theorem tget_tset_self {α : Type} (t : List (String × α)) (k : String)
    (v : α) : tget (tset t k v) k = some v := by
  induction t with
  | nil => simp [tset, tget]
  | cons p rest ih =>
    by_cases h : p.1 = k
    · simp [tset, h, tget]
    · simp [tset, h, tget, ih]

theorem tget_tset_ne {α : Type} (t : List (String × α)) {k k2 : String}
    (v : α) (h : k ≠ k2) : tget (tset t k v) k2 = tget t k2 := by
  induction t with
  | nil => simp [tset, tget, h]
  | cons p rest ih =>
    by_cases hp : p.1 = k
    · simp [tset, hp, tget, h, ih]
    · simp [tset, hp, tget, ih]

theorem mem_tset {α : Type} {t : List (String × α)} {k : String} {v : α}
    {p : String × α} (h : p ∈ tset t k v) : p = (k, v) ∨ p ∈ t := by
  induction t with
  | nil => simpa [tset] using h
  | cons q rest ih =>
    by_cases hq : q.1 = k
    · rw [tset, if_pos hq] at h
      rcases List.mem_cons.mp h with h2 | h2
      · exact Or.inl h2
      · exact Or.inr (List.mem_cons_of_mem _ h2)
    · rw [tset, if_neg hq] at h
      rcases List.mem_cons.mp h with h2 | h2
      · exact Or.inr (h2 ▸ List.mem_cons_self _ _)
      · rcases ih h2 with h3 | h3
        · exact Or.inl h3
        · exact Or.inr (List.mem_cons_of_mem _ h3)

theorem key_ne_of_tget_none {α : Type} {t : List (String × α)} {k : String}
    (h : tget t k = none) {p : String × α} (hp : p ∈ t) : p.1 ≠ k := by
  induction t with
  | nil => cases hp
  | cons q rest ih =>
    rw [tget] at h
    by_cases hq : q.1 = k
    · rw [if_pos hq] at h
      cases h
    · rw [if_neg hq] at h
      rcases List.mem_cons.mp hp with rfl | hp2
      · exact hq
      · exact ih h hp2

theorem not_mem_keys_of_tget_none {α : Type} {t : List (String × α)}
    {k : String} (h : tget t k = none) : k ∉ keys t := by
  intro hk
  rw [keys] at hk
  rcases List.mem_map.mp hk with ⟨p, hp, hpk⟩
  exact key_ne_of_tget_none h hp hpk

theorem keys_tset_of_none {α : Type} {t : List (String × α)} {k : String}
    (v : α) (h : tget t k = none) : keys (tset t k v) = keys t ++ [k] := by
  induction t with
  | nil => simp [tset, keys]
  | cons q rest ih =>
    rw [tget] at h
    by_cases hq : q.1 = k
    · rw [if_pos hq] at h
      cases h
    · rw [if_neg hq] at h
      rw [tset, if_neg hq]
      simp only [keys, List.map_cons] at ih ⊢
      rw [ih h]
      simp

theorem keys_tset_of_some {α : Type} {t : List (String × α)} {k : String}
    (v : α) (h : tget t k ≠ none) : keys (tset t k v) = keys t := by
  induction t with
  | nil => simp [tget] at h
  | cons q rest ih =>
    rw [tget] at h
    by_cases hq : q.1 = k
    · rw [tset, if_pos hq]
      simp [keys, hq]
    · rw [if_neg hq] at h
      rw [tset, if_neg hq]
      simp only [keys, List.map_cons] at ih ⊢
      rw [ih h]

theorem length_tset_of_none {α : Type} {t : List (String × α)} {k : String}
    (v : α) (h : tget t k = none) : (tset t k v).length = t.length + 1 := by
  have h2 := congrArg List.length (keys_tset_of_none v h)
  simpa [keys] using h2

theorem mem_of_tget {α : Type} {t : List (String × α)} {k : String} {v : α}
    (h : tget t k = some v) : (k, v) ∈ t := by
  induction t with
  | nil => simp [tget] at h
  | cons q rest ih =>
    rw [tget] at h
    by_cases hq : q.1 = k
    · rw [if_pos hq] at h
      injection h with h2
      exact List.mem_cons.mpr (Or.inl (by cases q; simp_all))
    · rw [if_neg hq] at h
      exact List.mem_cons_of_mem _ (ih h)

theorem tget_of_mem_nodup {α : Type} {t : List (String × α)}
    (hnd : (keys t).Nodup) {p : String × α} (hp : p ∈ t) :
    tget t p.1 = some p.2 := by
  induction t with
  | nil => cases hp
  | cons q rest ih =>
    have hnd2 : q.1 ∉ keys rest ∧ (keys rest).Nodup := by
      simpa [keys, List.nodup_cons] using hnd
    rcases List.mem_cons.mp hp with rfl | hp2
    · rw [tget, if_pos rfl]
    · rw [tget]
      by_cases hq : q.1 = p.1
      · exfalso
        have hmem : p.1 ∈ keys rest := by
          rw [keys]
          exact List.mem_map_of_mem Prod.fst hp2
        exact hnd2.1 (hq ▸ hmem)
      · rw [if_neg hq]
        exact ih hnd2.2 hp2

theorem tget_empty_key_none {α : Type} {t : List (String × α)}
    (h : ∀ p ∈ t, p.1 ≠ "") : tget t "" = none := by
  induction t with
  | nil => rfl
  | cons q rest ih =>
    rw [tget, if_neg (h q (List.mem_cons_self q rest))]
    exact ih fun p hp => h p (List.mem_cons_of_mem q hp)

/-! ## Handler characterization lemmas -/

theorem confirmIntent_invalid (st : ServerState) (oid : String) (now : Nat)
    (ip : String) (r1 r2 : ℚ) :
    confirmIntent st RawBody.invalid oid now ip r1 r2 =
      (st, Response.invalidJson) := rfl

theorem confirmIntent_emptyBody (st : ServerState) (oid : String) (now : Nat)
    (ip : String) (r1 r2 : ℚ) :
    confirmIntent st RawBody.empty oid now ip r1 r2 =
      (st, Response.intentNotFound) := rfl

theorem confirmIntent_noField (st : ServerState) (oid : String) (now : Nat)
    (ip : String) (r1 r2 : ℚ) :
    confirmIntent st (RawBody.objWith none) oid now ip r1 r2 =
      (st, Response.intentNotFound) := rfl

theorem confirmIntent_emptyId (st : ServerState) (oid : String) (now : Nat)
    (ip : String) (r1 r2 : ℚ) :
    confirmIntent st (RawBody.objWith (some "")) oid now ip r1 r2 =
      (st, Response.intentNotFound) := by
  simp [confirmIntent, parseBody]

theorem confirmIntent_unknown (st : ServerState) {i : String}
    (hne : i ≠ "") (hget : tget st.intents i = none) (oid : String)
    (now : Nat) (ip : String) (r1 r2 : ℚ) :
    confirmIntent st (RawBody.objWith (some i)) oid now ip r1 r2 =
      (st, Response.intentNotFound) := by
  simp [confirmIntent, parseBody, hne, hget]

theorem confirmIntent_confirmed (st : ServerState) {i pid : String}
    {intent : Intent} {order : Order}
    (hne : i ≠ "") (hget : tget st.intents i = some intent)
    (hc : intent.confirmed = true) (hpid : intent.plantingId = some pid)
    (horder : tget st.orders pid = some order)
    (oid : String) (now : Nat) (ip : String) (r1 r2 : ℚ) :
    confirmIntent st (RawBody.objWith (some i)) oid now ip r1 r2 =
      (st, Response.ok order.plantingId) := by
  simp [confirmIntent, parseBody, hne, hget, hc, hpid, horder]

theorem confirmIntent_fresh (st : ServerState) {i : String} {intent : Intent}
    (hne : i ≠ "") (hget : tget st.intents i = some intent)
    (hc : intent.confirmed = false)
    (oid : String) (now : Nat) (ip : String) (r1 r2 : ℚ) :
    confirmIntent st (RawBody.objWith (some i)) oid now ip r1 r2 =
      (⟨tset st.intents i
          { intent with confirmed := true, plantingId := some oid },
        tset st.orders oid
          { plantingId := oid, intentId := i, createdAt := intent.createdAt,
            confirmedAt := now, ip := ip,
            coordinates :=
              (-3.465305 + (r1 - 0.5) * 0.1,
               -73.241997 + (r2 - 0.5) * 0.1) }⟩,
       Response.ok oid) := by
  simp [confirmIntent, parseBody, hne, hget, hc]

theorem confirmIntent_confirmed_fst (st : ServerState) {i : String}
    {intent : Intent} (hne : i ≠ "") (hget : tget st.intents i = some intent)
    (hc : intent.confirmed = true) (oid : String) (now : Nat) (ip : String)
    (r1 r2 : ℚ) :
    (confirmIntent st (RawBody.objWith (some i)) oid now ip r1 r2).1 = st := by
  cases hpid : intent.plantingId with
  | none => simp [confirmIntent, parseBody, hne, hget, hc, hpid]
  | some pid =>
    cases htg : tget st.orders pid <;>
      simp [confirmIntent, parseBody, hne, hget, hc, hpid, htg]

theorem getProof_fst (st : ServerState) (q : Option String) :
    (getProof st q).1 = st := by
  cases q with
  | none => rfl
  | some pid =>
    by_cases h : pid = ""
    · simp [getProof, h]
    · cases ho : tget st.orders pid <;> simp [getProof, h, ho]

theorem getProof_found (st : ServerState) {pid : String} {order : Order}
    (hne : pid ≠ "") (hget : tget st.orders pid = some order) :
    getProof st (some pid) =
      (st, Response.certificate (generateCertificate order)) := by
  simp [getProof, hne, hget]

/-! ## Preservation of the invariant -/

theorem createIntent_wf {st : ServerState} (hwf : Wf st) {fid : String}
    (hne : fid ≠ "") (hfresh : tget st.intents fid = none) (now : Nat)
    (ip : String) : Wf (createIntent st fid now ip).1 := by
  obtain ⟨hnd1, hnd2, hints, hords⟩ := hwf
  refine ⟨?_, hnd2, ?_, ?_⟩
  · rw [createIntent]
    rw [keys_tset_of_none _ hfresh]
    refine List.Nodup.append hnd1 (List.nodup_singleton fid) ?_
    intro a ha hb
    exact not_mem_keys_of_tget_none hfresh ((List.mem_singleton.mp hb) ▸ ha)
  · intro p hp
    rcases mem_tset hp with rfl | hp2
    · refine ⟨hne, ?_, ?_⟩
      · intro hc
        simp at hc
      · intro _
        rfl
    · obtain ⟨hpne, hl⟩ := hints p hp2
      exact ⟨hpne, hl⟩
  · intro p hp
    obtain ⟨hpne, hpl1, hpl2⟩ := hords p hp
    refine ⟨hpne, hpl1, ?_⟩
    have hkne : fid ≠ p.2.intentId := by
      intro heq
      rw [← heq, hfresh] at hpl2
      cases hpl2
    rw [createIntent]
    simp only []
    rw [tget_tset_ne _ _ hkne]
    exact hpl2

theorem confirm_fresh_wf {st : ServerState} (hwf : Wf st) {i oid : String}
    {intent : Intent} (hne : i ≠ "") (hoidne : oid ≠ "")
    (hget : tget st.intents i = some intent) (hc : intent.confirmed = false)
    (hfresh : tget st.orders oid = none) (now : Nat) (ip : String)
    (r1 r2 : ℚ) :
    Wf (confirmIntent st (RawBody.objWith (some i)) oid now ip r1 r2).1 := by
  obtain ⟨hnd1, hnd2, hints, hords⟩ := hwf
  rw [confirmIntent_fresh st hne hget hc oid now ip r1 r2]
  refine ⟨?_, ?_, ?_, ?_⟩
  · rw [keys_tset_of_some _ (by rw [hget]; exact fun h => Option.noConfusion h)]
    exact hnd1
  · rw [keys_tset_of_none _ hfresh]
    refine List.Nodup.append hnd2 (List.nodup_singleton oid) ?_
    intro a ha hb
    exact not_mem_keys_of_tget_none hfresh ((List.mem_singleton.mp hb) ▸ ha)
  · intro p hp
    rcases mem_tset hp with rfl | hp2
    · refine ⟨hne, ?_, ?_⟩
      · intro _
        simp only [Option.bind, tget_tset_self, Option.map]
      · intro hfalse
        simp at hfalse
    · obtain ⟨hpne, hl1, hl2⟩ := hints p hp2
      refine ⟨hpne, ?_, hl2⟩
      intro hpc
      have hold := hl1 hpc
      cases hbp : p.2.plantingId with
      | none =>
        rw [hbp] at hold
        simp at hold
      | some pid =>
        rw [hbp] at hold
        cases htg : tget st.orders pid with
        | none =>
          simp [htg] at hold
        | some o =>
          have hpidne : oid ≠ pid := by
            intro heq
            rw [← heq, hfresh] at htg
            cases htg
          simp only [Option.some_bind] at hold ⊢
          rw [tget_tset_ne _ _ hpidne]
          exact hold
  · intro p hp
    rcases mem_tset hp with rfl | hp2
    · refine ⟨hoidne, rfl, ?_⟩
      simp only []
      rw [tget_tset_self]
      rfl
    · obtain ⟨hpne, hl1, hl2⟩ := hords p hp2
      refine ⟨hpne, hl1, ?_⟩
      have hkne : i ≠ p.2.intentId := by
        intro heq
        rw [← heq, hget] at hl2
        simp only [Option.map] at hl2
        injection hl2 with h2
        rw [hc] at h2
        injection h2 with h3
        cases h3
      simp only []
      rw [tget_tset_ne _ _ hkne]
      exact hl2

theorem confirmIntent_wf {st : ServerState} (hwf : Wf st) (body : RawBody)
    {oid : String} (hoidne : oid ≠ "") (hfresh : tget st.orders oid = none)
    (now : Nat) (ip : String) (r1 r2 : ℚ) :
    Wf (confirmIntent st body oid now ip r1 r2).1 := by
  cases body with
  | invalid => exact hwf
  | empty => exact hwf
  | objWith f =>
    cases f with
    | none => exact hwf
    | some i =>
      by_cases hne : i = ""
      · rw [hne, confirmIntent_emptyId]
        exact hwf
      · cases hget : tget st.intents i with
        | none =>
          rw [confirmIntent_unknown st hne hget]
          exact hwf
        | some intent =>
          cases hc : intent.confirmed with
          | false =>
            exact confirm_fresh_wf hwf hne hoidne hget hc hfresh now ip r1 r2
          | true =>
            rw [confirmIntent_confirmed_fst st hne hget hc]
            exact hwf

theorem step_wf {st : ServerState} {op : Op} (hwf : Wf st)
    (hf : freshOk st op = true) : Wf (step st op).1 := by
  cases op with
  | create fid now ip =>
    simp only [freshOk, Bool.and_eq_true, decide_eq_true_eq, Bool.not_eq_true',
      thas, Option.not_isSome, Option.isNone_iff_eq_none] at hf
    exact createIntent_wf hwf hf.1.1 hf.1.2 now ip
  | confirm body oid now ip r1 r2 =>
    simp only [freshOk, Bool.and_eq_true, decide_eq_true_eq, Bool.not_eq_true',
      thas, Option.not_isSome, Option.isNone_iff_eq_none] at hf
    exact confirmIntent_wf hwf body hf.1.1 hf.2 now ip r1 r2
  | proof pid =>
    show Wf (getProof st pid).1
    rw [getProof_fst]
    exact hwf

theorem run_wf : ∀ (ops : List Op) (st : ServerState), Wf st →
    runFresh st ops = true → Wf (run st ops)
  | [], _, hwf, _ => hwf
  | op :: rest, st, hwf, hf => by
    rw [runFresh, Bool.and_eq_true] at hf
    exact run_wf rest (step st op).1 (step_wf hwf hf.1) hf.2

theorem initialState_wf : Wf initialState := by
  refine ⟨List.nodup_nil, List.nodup_nil, ?_, ?_⟩ <;> intro p hp <;> cases hp

/-! ## Claim theorems -/

/-- In a well-formed state no table stores the empty-string key, so the
`!plantingId` falsiness guard never masks a stored order. -/
theorem wf_orders_empty_key {st : ServerState} (hwf : Wf st) :
    tget st.orders "" = none :=
  tget_empty_key_none fun p hp => (hwf.2.2.2 p hp).1

/-- Concrete state for witnesses: one unconfirmed intent, no orders. -/
def wState1 : ServerState :=
  ⟨[("aaa", { createdAt := 0, confirmed := false, ip := "ip",
              plantingId := none })], []⟩

/-- Concrete order for witnesses. -/
def wOrder : Order :=
  { plantingId := "bbb", intentId := "aaa", createdAt := 0, confirmedAt := 7,
    ip := "ip", coordinates := (0, 0) }

/-- Concrete state for witnesses: one confirmed intent linked 1:1 to one
order. -/
def wState2 : ServerState :=
  ⟨[("aaa", { createdAt := 0, confirmed := true, ip := "ip",
              plantingId := some "bbb" })],
   [("bbb", wOrder)]⟩

/-- C6: if the supplied intent id is not a key of the intents table,
`ConfirmIntent` answers `Intent not found` (404) and returns the state
completely unchanged — no side effect accompanies `NotFound`. -/
theorem confirm_notFound_no_side_effect (st : ServerState) (i : String)
    (h : tget st.intents i = none) (oid : String) (now : Nat) (ip : String)
    (r1 r2 : ℚ) :
    confirmIntent st (RawBody.objWith (some i)) oid now ip r1 r2 =
      (st, Response.intentNotFound) := by
  by_cases hne : i = ""
  · rw [hne]
    exact confirmIntent_emptyId st oid now ip r1 r2
  · exact confirmIntent_unknown st hne h oid now ip r1 r2

/-- Witness for C6 at a concrete state and unknown id. -/
theorem confirm_notFound_no_side_effect_witness :
    tget wState1.intents "zzz" = none ∧
    confirmIntent wState1 (RawBody.objWith (some "zzz")) "ord" 5 "ip" 0 0 =
      (wState1, Response.intentNotFound) :=
  ⟨by decide,
   confirm_notFound_no_side_effect wState1 "zzz" (by decide) "ord" 5 "ip" 0 0⟩

/-- C7: a confirmation request whose body does not parse as JSON is
answered with the `Invalid JSON` (400) error, and neither table is touched:
the result state is exactly the input state. -/
theorem confirm_invalid_json_no_mutation (st : ServerState) (oid : String)
    (now : Nat) (ip : String) (r1 r2 : ℚ) :
    confirmIntent st RawBody.invalid oid now ip r1 r2 =
      (st, Response.invalidJson) := rfl

/-- C9: an empty body (defaulted to `'{}'` by `body || '{}'` before
parsing), a JSON object with no `intent_id` field, and a falsy (empty
string) `intent_id` value are all answered with `Intent not found` (404),
not `Invalid JSON`, and leave the state unchanged. -/
theorem confirm_falsy_intent_id_not_found (st : ServerState) (oid : String)
    (now : Nat) (ip : String) (r1 r2 : ℚ) :
    confirmIntent st RawBody.empty oid now ip r1 r2 =
      (st, Response.intentNotFound) ∧
    confirmIntent st (RawBody.objWith none) oid now ip r1 r2 =
      (st, Response.intentNotFound) ∧
    confirmIntent st (RawBody.objWith (some "")) oid now ip r1 r2 =
      (st, Response.intentNotFound) :=
  ⟨rfl, rfl, confirmIntent_emptyId st oid now ip r1 r2⟩

/-- C5: `GetProof` never mutates state and is identical on repeated calls;
on a well-formed state it answers `Planting order not found` exactly when
the queried id is not a stored order id; and when the order exists it
returns the record with the order id, the linked intent id, the fixed
project label, the ISO-8601 rendering of `confirmedAt`, the stored
location pair, and the fixed message. -/
theorem getProof_contract :
    (∀ (st : ServerState) (q : Option String), (getProof st q).1 = st) ∧
    (∀ (st : ServerState) (q : Option String),
      getProof (getProof st q).1 q = getProof st q) ∧
    (∀ st : ServerState, Wf st → ∀ pid : String,
      ((getProof st (some pid)).2 = Response.orderNotFound ↔
        tget st.orders pid = none)) ∧
    (∀ st : ServerState, Wf st → ∀ (pid : String) (order : Order),
      tget st.orders pid = some order →
      (getProof st (some pid)).2 =
        Response.certificate
          { planting_id := order.plantingId, intent_id := order.intentId,
            project := "Amazonía Peruana",
            planted_at := toISOString order.confirmedAt,
            coordinates := order.coordinates,
            message :=
              "Gracias por plantar un árbol en la Amazonía peruana!" }) := by
  refine ⟨getProof_fst, ?_, ?_, ?_⟩
  · intro st q
    rw [getProof_fst]
  · intro st hwf pid
    by_cases hne : pid = ""
    · rw [hne]
      constructor
      · intro _
        exact wf_orders_empty_key hwf
      · intro _
        simp [getProof]
    · cases htg : tget st.orders pid with
      | none => simp [getProof, hne, htg]
      | some o =>
        rw [getProof_found st hne htg]
        simp [htg]
  · intro st hwf pid order htg
    have hne := (hwf.2.2.2 _ (mem_of_tget htg)).1
    rw [getProof_found st hne htg]
    rfl

/-- Witness for C5 at a concrete well-formed state: a missing order id and
a stored one. -/
theorem getProof_contract_witness :
    (getProof wState2 (some "bbb")).1 = wState2 ∧
    Wf wState2 ∧
    ((getProof wState2 (some "zzz")).2 = Response.orderNotFound ↔
      tget wState2.orders "zzz" = none) ∧
    tget wState2.orders "bbb" = some wOrder ∧
    (getProof wState2 (some "bbb")).2 =
      Response.certificate
        { planting_id := wOrder.plantingId, intent_id := wOrder.intentId,
          project := "Amazonía Peruana",
          planted_at := toISOString wOrder.confirmedAt,
          coordinates := wOrder.coordinates,
          message := "Gracias por plantar un árbol en la Amazonía peruana!" } :=
  ⟨getProof_contract.1 wState2 (some "bbb"), by decide,
   getProof_contract.2.2.1 wState2 (by decide) "zzz", by decide,
   getProof_contract.2.2.2 wState2 (by decide) "bbb" wOrder (by decide)⟩

/-- C1: on a well-formed state, confirming an already-confirmed intent
returns the order id stored at the first confirmation and leaves the state
untouched; and confirming a fresh unconfirmed intent twice in sequence
yields the same order id both times, with the second call not mutating the
state and the orders table holding exactly one more record than before. -/
theorem confirm_idempotent :
    (∀ (st : ServerState) (i : String) (intent : Intent) (oid : String)
        (now : Nat) (ip : String) (r1 r2 : ℚ),
      Wf st → tget st.intents i = some intent → intent.confirmed = true →
      ∃ pid, intent.plantingId = some pid ∧
        confirmIntent st (RawBody.objWith (some i)) oid now ip r1 r2 =
          (st, Response.ok pid)) ∧
    (∀ (st : ServerState) (i : String) (intent : Intent) (oid : String)
        (now : Nat) (ip : String) (r1 r2 : ℚ) (oid2 : String) (now2 : Nat)
        (ip2 : String) (q1 q2 : ℚ),
      i ≠ "" → tget st.intents i = some intent → intent.confirmed = false →
      tget st.orders oid = none →
      (confirmIntent st (RawBody.objWith (some i)) oid now ip r1 r2).2 =
        Response.ok oid ∧
      confirmIntent
          (confirmIntent st (RawBody.objWith (some i)) oid now ip r1 r2).1
          (RawBody.objWith (some i)) oid2 now2 ip2 q1 q2 =
        ((confirmIntent st (RawBody.objWith (some i)) oid now ip r1 r2).1,
         Response.ok oid) ∧
      (confirmIntent st
          (RawBody.objWith (some i)) oid now ip r1 r2).1.orders.length =
        st.orders.length + 1) := by
  constructor
  · intro st i intent oid now ip r1 r2 hwf hget hc
    have hmem := mem_of_tget hget
    have hne : i ≠ "" := (hwf.2.2.1 _ hmem).1
    have hl1 := (hwf.2.2.1 _ hmem).2.1 hc
    cases hbp : intent.plantingId with
    | none =>
      rw [hbp] at hl1
      simp at hl1
    | some pid =>
      rw [hbp] at hl1
      cases htg : tget st.orders pid with
      | none =>
        simp [htg] at hl1
      | some o =>
        have hop : o.plantingId = pid := (hwf.2.2.2 _ (mem_of_tget htg)).2.1
        refine ⟨pid, rfl, ?_⟩
        rw [confirmIntent_confirmed st hne hget hc hbp htg oid now ip r1 r2]
        rw [hop]
  · intro st i intent oid now ip r1 r2 oid2 now2 ip2 q1 q2 hne hget hc hfresh
    have hc1 := confirmIntent_fresh st hne hget hc oid now ip r1 r2
    refine ⟨by rw [hc1], ?_, ?_⟩
    · rw [hc1]
      have h2 := confirmIntent_confirmed
        (⟨tset st.intents i
            { intent with confirmed := true, plantingId := some oid },
          tset st.orders oid
            { plantingId := oid, intentId := i, createdAt := intent.createdAt,
              confirmedAt := now, ip := ip,
              coordinates :=
                (-3.465305 + (r1 - 0.5) * 0.1,
                 -73.241997 + (r2 - 0.5) * 0.1) }⟩ : ServerState)
        hne (tget_tset_self _ _ _) rfl rfl (tget_tset_self _ _ _)
        oid2 now2 ip2 q1 q2
      exact h2
    · rw [hc1]
      exact length_tset_of_none _ hfresh

/-- Witness for C1: the already-confirmed part at the linked one-intent
state, and the double-confirmation part on a fresh intent. -/
theorem confirm_idempotent_witness :
    (Wf wState2 ∧
     ∃ pid,
       Intent.plantingId
           { createdAt := 0, confirmed := true, ip := "ip",
             plantingId := some "bbb" } = some pid ∧
       confirmIntent wState2 (RawBody.objWith (some "aaa")) "ccc" 9 "ip" 0 0 =
         (wState2, Response.ok pid)) ∧
    ((confirmIntent wState1 (RawBody.objWith (some "aaa")) "bbb" 5 "ip" 0 0).2 =
       Response.ok "bbb" ∧
     confirmIntent
         (confirmIntent wState1 (RawBody.objWith (some "aaa")) "bbb" 5 "ip" 0 0).1
         (RawBody.objWith (some "aaa")) "ddd" 6 "ip" 0 0 =
       ((confirmIntent wState1 (RawBody.objWith (some "aaa")) "bbb" 5 "ip" 0 0).1,
        Response.ok "bbb") ∧
     (confirmIntent wState1
         (RawBody.objWith (some "aaa")) "bbb" 5 "ip" 0 0).1.orders.length =
       wState1.orders.length + 1) :=
  ⟨⟨by decide,
    confirm_idempotent.1 wState2 "aaa"
      { createdAt := 0, confirmed := true, ip := "ip",
        plantingId := some "bbb" }
      "ccc" 9 "ip" 0 0 (by decide) (by decide) rfl⟩,
   confirm_idempotent.2 wState1 "aaa"
     { createdAt := 0, confirmed := false, ip := "ip", plantingId := none }
     "bbb" 5 "ip" 0 0 "ddd" 6 "ip" 0 0 (by decide) (by decide) rfl
     (by decide)⟩

/-- C8: the order created by a first-time confirmation stores coordinates
that lie within ±0.05 of the fixed base point (-3.465305, -73.241997),
provided the two `Math.random()` draws lie in `[0, 1)`. -/
theorem order_coordinates_bounded (st : ServerState) (i : String)
    (intent : Intent) (oid : String) (now : Nat) (ip : String) (r1 r2 : ℚ)
    (hne : i ≠ "") (hget : tget st.intents i = some intent)
    (hc : intent.confirmed = false)
    (h10 : 0 ≤ r1) (h11 : r1 < 1) (h20 : 0 ≤ r2) (h21 : r2 < 1) :
    ∃ order : Order,
      tget (confirmIntent st
          (RawBody.objWith (some i)) oid now ip r1 r2).1.orders oid =
        some order ∧
      -3.465305 - 0.05 ≤ order.coordinates.1 ∧
      order.coordinates.1 ≤ -3.465305 + 0.05 ∧
      -73.241997 - 0.05 ≤ order.coordinates.2 ∧
      order.coordinates.2 ≤ -73.241997 + 0.05 := by
  rw [confirmIntent_fresh st hne hget hc oid now ip r1 r2]
  refine ⟨_, tget_tset_self _ _ _, ?_, ?_, ?_, ?_⟩ <;>
    simp only [] <;> nlinarith

/-- Witness for C8 at a concrete state and concrete random draws. -/
theorem order_coordinates_bounded_witness :
    ((0 : ℚ) ≤ 0 ∧ (0 : ℚ) < 1 ∧ (0 : ℚ) ≤ 1 / 2 ∧ (1 : ℚ) / 2 < 1) ∧
    ∃ order : Order,
      tget (confirmIntent wState1
          (RawBody.objWith (some "aaa")) "bbb" 5 "ip" 0 (1 / 2)).1.orders
          "bbb" =
        some order ∧
      -3.465305 - 0.05 ≤ order.coordinates.1 ∧
      order.coordinates.1 ≤ -3.465305 + 0.05 ∧
      -73.241997 - 0.05 ≤ order.coordinates.2 ∧
      order.coordinates.2 ≤ -73.241997 + 0.05 :=
  ⟨⟨by norm_num, by norm_num, by norm_num, by norm_num⟩,
   order_coordinates_bounded wState1 "aaa"
     { createdAt := 0, confirmed := false, ip := "ip", plantingId := none }
     "bbb" 5 "ip" 0 (1 / 2) (by decide) (by decide) rfl
     (by norm_num) (by norm_num) (by norm_num) (by norm_num)⟩

/-- The environment inputs of one confirm invocation: fresh order id,
`Date.now()`, remote address, and the two `Math.random()` draws. -/
abbrev ConfirmInput : Type := String × Nat × String × ℚ × ℚ

/-- A sequence of `ConfirmIntent` invocations for one intent id `i`.  Node
runs each confirm callback to completion on the event-loop thread, so any
set of concurrent confirmations for `i` executes as such a sequence. -/
def runConfirms (st : ServerState) (i : String) :
    List ConfirmInput → ServerState × List Response
  | [] => (st, [])
  | (oid, now, ip, r1, r2) :: rest =>
    let p := confirmIntent st (RawBody.objWith (some i)) oid now ip r1 r2
    let q := runConfirms p.1 i rest
    (q.1, p.2 :: q.2)

/-- Once an intent is confirmed and correctly linked, any further sequence
of confirmations returns the linked order id every time and never changes
the state. -/
theorem runConfirms_confirmed (i pid : String) (hne : i ≠ "")
    (rest : List ConfirmInput) :
    ∀ (st1 : ServerState) (it1 : Intent) (o : Order),
      tget st1.intents i = some it1 → it1.confirmed = true →
      it1.plantingId = some pid → tget st1.orders pid = some o →
      o.plantingId = pid →
      runConfirms st1 i rest =
        (st1, List.replicate rest.length (Response.ok pid)) := by
  induction rest with
  | nil =>
    intro st1 it1 o _ _ _ _ _
    rfl
  | cons c rest ih =>
    intro st1 it1 o hget hc hpid htg hop
    obtain ⟨oid, now, ip, r1, r2⟩ := c
    have hcall := confirmIntent_confirmed st1 hne hget hc hpid htg
      oid now ip r1 r2
    rw [hop] at hcall
    rw [runConfirms]
    simp only [hcall]
    rw [ih st1 it1 o hget hc hpid htg hop]
    simp [List.replicate]

/-- C2: for a freshly created, unconfirmed intent, any sequence of N ≥ 1
atomic `ConfirmIntent` executions (the event-loop serialization of N
concurrent calls) creates exactly one order — the state after all N calls
is the state after the first, whose orders table has exactly one new
record — and all N calls return the same order id. -/
theorem concurrent_confirm_one_order (st : ServerState) (i : String)
    (intent : Intent) (oid : String) (now : Nat) (ip : String) (r1 r2 : ℚ)
    (rest : List ConfirmInput)
    (hne : i ≠ "") (hget : tget st.intents i = some intent)
    (hun : intent.confirmed = false) (hfresh : tget st.orders oid = none) :
    (runConfirms st i ((oid, now, ip, r1, r2) :: rest)).2 =
      List.replicate (rest.length + 1) (Response.ok oid) ∧
    (runConfirms st i ((oid, now, ip, r1, r2) :: rest)).1 =
      (confirmIntent st (RawBody.objWith (some i)) oid now ip r1 r2).1 ∧
    (runConfirms st i
        ((oid, now, ip, r1, r2) :: rest)).1.orders.length =
      st.orders.length + 1 := by
  have hc1 := confirmIntent_fresh st hne hget hun oid now ip r1 r2
  have hrest := runConfirms_confirmed i oid hne rest
    (⟨tset st.intents i
        { intent with confirmed := true, plantingId := some oid },
      tset st.orders oid
        { plantingId := oid, intentId := i, createdAt := intent.createdAt,
          confirmedAt := now, ip := ip,
          coordinates :=
            (-3.465305 + (r1 - 0.5) * 0.1,
             -73.241997 + (r2 - 0.5) * 0.1) }⟩ : ServerState)
    { intent with confirmed := true, plantingId := some oid }
    { plantingId := oid, intentId := i, createdAt := intent.createdAt,
      confirmedAt := now, ip := ip,
      coordinates :=
        (-3.465305 + (r1 - 0.5) * 0.1, -73.241997 + (r2 - 0.5) * 0.1) }
    (tget_tset_self _ _ _) rfl rfl (tget_tset_self _ _ _) rfl
  have hrun : runConfirms st i ((oid, now, ip, r1, r2) :: rest) =
      (⟨tset st.intents i
          { intent with confirmed := true, plantingId := some oid },
        tset st.orders oid
          { plantingId := oid, intentId := i, createdAt := intent.createdAt,
            confirmedAt := now, ip := ip,
            coordinates :=
              (-3.465305 + (r1 - 0.5) * 0.1,
               -73.241997 + (r2 - 0.5) * 0.1) }⟩,
       Response.ok oid :: List.replicate rest.length (Response.ok oid)) := by
    rw [runConfirms]
    simp only [hc1, hrest]
  refine ⟨?_, ?_, ?_⟩
  · rw [hrun]
    simp [List.replicate]
  · rw [hrun, hc1]
  · rw [hrun]
    exact length_tset_of_none _ hfresh

/-- Witness for C2: two sequential confirmations of a fresh intent at a
concrete state. -/
theorem concurrent_confirm_one_order_witness :
    (runConfirms wState1 "aaa"
        [("bbb", 5, "ip", 0, 0), ("ccc", 6, "ip", 0, 0)]).2 =
      List.replicate 2 (Response.ok "bbb") ∧
    (runConfirms wState1 "aaa"
        [("bbb", 5, "ip", 0, 0), ("ccc", 6, "ip", 0, 0)]).1 =
      (confirmIntent wState1 (RawBody.objWith (some "aaa")) "bbb" 5 "ip" 0 0).1 ∧
    (runConfirms wState1 "aaa"
        [("bbb", 5, "ip", 0, 0), ("ccc", 6, "ip", 0, 0)]).1.orders.length =
      wState1.orders.length + 1 :=
  concurrent_confirm_one_order wState1 "aaa"
    { createdAt := 0, confirmed := false, ip := "ip", plantingId := none }
    "bbb" 5 "ip" 0 0 [("ccc", 6, "ip", 0, 0)] (by decide) (by decide) rfl
    (by decide)

/-- C3: after any sequence of operations from the initial state in which
every generated id is a fresh draw (the spec's uniqueness assumption on
the random id source), the state is well-formed — keys are unique, every
order's `intentId` names an existing confirmed intent whose stored order
id names back exactly this order, and no order has an absent or
unconfirmed intent — and `GetProof` on any stored order id reports
`intent_id` equal to that order's `intentId`. -/
theorem referential_integrity (ops : List Op)
    (hfr : runFresh initialState ops = true) :
    Wf (run initialState ops) ∧
    ∀ p ∈ (run initialState ops).orders,
      getProof (run initialState ops) (some p.1) =
        (run initialState ops,
         Response.certificate (generateCertificate p.2)) ∧
      (generateCertificate p.2).intent_id = p.2.intentId := by
  have hwf := run_wf ops initialState initialState_wf hfr
  refine ⟨hwf, ?_⟩
  intro p hp
  have hne := (hwf.2.2.2 p hp).1
  have htg := tget_of_mem_nodup hwf.2.1 hp
  exact ⟨getProof_found _ hne htg, rfl⟩

/-- Witness for C3: a concrete fresh run — create, confirm, get proof. -/
theorem referential_integrity_witness :
    runFresh initialState
        [Op.create "aaa" 0 "ip",
         Op.confirm (RawBody.objWith (some "aaa")) "bbb" 5 "ip" 0 0,
         Op.proof (some "bbb")] = true ∧
    (Wf (run initialState
        [Op.create "aaa" 0 "ip",
         Op.confirm (RawBody.objWith (some "aaa")) "bbb" 5 "ip" 0 0,
         Op.proof (some "bbb")]) ∧
     ∀ p ∈ (run initialState
        [Op.create "aaa" 0 "ip",
         Op.confirm (RawBody.objWith (some "aaa")) "bbb" 5 "ip" 0 0,
         Op.proof (some "bbb")]).orders,
       getProof (run initialState
          [Op.create "aaa" 0 "ip",
           Op.confirm (RawBody.objWith (some "aaa")) "bbb" 5 "ip" 0 0,
           Op.proof (some "bbb")]) (some p.1) =
         (run initialState
            [Op.create "aaa" 0 "ip",
             Op.confirm (RawBody.objWith (some "aaa")) "bbb" 5 "ip" 0 0,
             Op.proof (some "bbb")],
          Response.certificate (generateCertificate p.2)) ∧
       (generateCertificate p.2).intent_id = p.2.intentId) :=
  ⟨by decide, referential_integrity _ (by decide)⟩

/-- C4 counterexample: the claim that generated identifiers are always
distinct from all existing ids fails on the code.  `generateId` performs
no collision check: on the (possible) repeated byte draw
`[0, 0, 0, 0, 0, 0]` of `crypto.randomBytes(6)` it returns the same intent
id `"000000000000"` twice, and the second `CreateIntent` then overwrites
the first record — afterwards a single intent record remains and its
`createdAt` is the second call's timestamp `1`, not the first call's `0`. -/
theorem id_uniqueness_counterexample :
    generateId 12 [0, 0, 0, 0, 0, 0] = "000000000000" ∧
    (createIntent
        (createIntent initialState (generateId 12 [0, 0, 0, 0, 0, 0]) 0 "a").1
        (generateId 12 [0, 0, 0, 0, 0, 0]) 1 "a").1.intents.length = 1 ∧
    tget (createIntent
        (createIntent initialState (generateId 12 [0, 0, 0, 0, 0, 0]) 0 "a").1
        (generateId 12 [0, 0, 0, 0, 0, 0]) 1 "a").1.intents
      (generateId 12 [0, 0, 0, 0, 0, 0]) =
      some { createdAt := 1, confirmed := false, ip := "a",
             plantingId := none } := by
  decide

/-- C4 amended: identifier uniqueness is conditional on the random source:
`generateId` is a pure function of the drawn bytes and the code performs no
collision check, so uniqueness holds exactly when every draw yields an id
distinct from all existing intent and order ids.  Under that freshness
assumption no store overwrites an existing record: `CreateIntent` extends
the intents table by exactly one entry and preserves every other entry and
the whole orders table, and a first-time `ConfirmIntent` extends the
orders table by exactly one entry and preserves every other order. -/
theorem id_uniqueness_amended (st : ServerState) (fid : String) (now : Nat)
    (ip : String) (hfi : tget st.intents fid = none) :
    (createIntent st fid now ip).1.intents.length = st.intents.length + 1 ∧
    (∀ k, k ≠ fid →
      tget (createIntent st fid now ip).1.intents k = tget st.intents k) ∧
    (createIntent st fid now ip).1.orders = st.orders ∧
    ∀ (i : String) (intent : Intent) (oid : String) (now2 : Nat)
      (ip2 : String) (r1 r2 : ℚ),
      i ≠ "" → tget st.intents i = some intent →
      intent.confirmed = false → tget st.orders oid = none →
      (confirmIntent st
          (RawBody.objWith (some i)) oid now2 ip2 r1 r2).1.orders.length =
        st.orders.length + 1 ∧
      ∀ k, k ≠ oid →
        tget (confirmIntent st
            (RawBody.objWith (some i)) oid now2 ip2 r1 r2).1.orders k =
          tget st.orders k := by
  refine ⟨length_tset_of_none _ hfi, ?_, rfl, ?_⟩
  · intro k hk
    exact tget_tset_ne _ _ (Ne.symm hk)
  · intro i intent oid now2 ip2 r1 r2 hne hget hc hfresh
    rw [confirmIntent_fresh st hne hget hc oid now2 ip2 r1 r2]
    refine ⟨length_tset_of_none _ hfresh, ?_⟩
    intro k hk
    exact tget_tset_ne _ _ (Ne.symm hk)

/-- Witness for C4's amended statement at a concrete state. -/
theorem id_uniqueness_amended_witness :
    tget wState1.intents "yyy" = none ∧
    ((createIntent wState1 "yyy" 3 "ip").1.intents.length =
        wState1.intents.length + 1 ∧
      (∀ k, k ≠ "yyy" →
        tget (createIntent wState1 "yyy" 3 "ip").1.intents k =
          tget wState1.intents k) ∧
      (createIntent wState1 "yyy" 3 "ip").1.orders = wState1.orders ∧
      ∀ (i : String) (intent : Intent) (oid : String) (now2 : Nat)
        (ip2 : String) (r1 r2 : ℚ),
        i ≠ "" → tget wState1.intents i = some intent →
        intent.confirmed = false → tget wState1.orders oid = none →
        (confirmIntent wState1
            (RawBody.objWith (some i)) oid now2 ip2 r1 r2).1.orders.length =
          wState1.orders.length + 1 ∧
        ∀ k, k ≠ oid →
          tget (confirmIntent wState1
              (RawBody.objWith (some i)) oid now2 ip2 r1 r2).1.orders k =
            tget wState1.orders k) :=
  ⟨by decide, id_uniqueness_amended wState1 "yyy" 3 "ip" (by decide)⟩

/-- C10: the API logic embedded in `jungle404_demo_server.js` is
observationally identical to the one of `jungle404_server.js`: on every
state, every operation produces the same response and the same next state,
and hence every run produces the same final tables. -/
theorem demo_backend_equiv :
    (∀ (st : ServerState) (op : Op), stepDemo st op = step st op) ∧
    (∀ (ops : List Op) (st : ServerState), runDemo st ops = run st ops) := by
  have hstep : ∀ (st : ServerState) (op : Op), stepDemo st op = step st op := by
    intro st op
    cases op <;> rfl
  refine ⟨hstep, ?_⟩
  intro ops
  induction ops with
  | nil =>
    intro st
    rfl
  | cons op rest ih =>
    intro st
    rw [runDemo, run, hstep]
    exact ih _
